import Mathlib

/-!
Verification development for the resilient dispatch core of the
Azure-Healthcare-Platform API gateway (src/src/api-gateway/main.py).

The embedding below translates the gateway's circuit breaker
(`CircuitBreaker.call`), the bounded-retry request loop
(`APIGateway.proxy_request.make_request`), the per-route rate limiting, and
the route handlers' error mapping into executable Lean definitions, and
proves the specified resilience properties about them.

Timestamps (`datetime.utcnow().timestamp()` in the source) are modelled as
integers; the two clock reads inside one `call` invocation are modelled as a
single instant `now`.
-/

namespace Gateway

/-- Breaker states, from the comment on line 115 of the source:
CLOSED, OPEN, HALF_OPEN. -/
inductive BreakerState
  | CLOSED
  | OPEN
  | HALF_OPEN
deriving DecidableEq, Repr

/-- A well-formed backend HTTP response (httpx returns a response object for
any status code, including 4xx/5xx; it raises only on transport failures). -/
structure Response where
  status_code : Nat
  body : String
deriving DecidableEq, Repr

/-- State of one per-service `CircuitBreaker` object: `threshold`, `timeout`,
`failure_count`, `last_failure_time` (initially `None`), `state`. -/
structure CircuitBreaker where
  threshold : Nat
  timeout : Int
  failure_count : Nat
  last_failure_time : Option Int
  state : BreakerState
deriving DecidableEq, Repr

/-- The `__init__` of `CircuitBreaker`: failure_count 0, last_failure_time
None, state CLOSED. -/
def CircuitBreaker.init (threshold : Nat) (timeout : Int) : CircuitBreaker :=
  ⟨threshold, timeout, 0, none, .CLOSED⟩

/-- Outcome of one `CircuitBreaker.call` as seen by the caller: the wrapped
function's result is returned, or HTTPException(503, "Service temporarily
unavailable") is raised without invoking the function (`circuitOpen`), or the
wrapped function's exception is re-raised (`raised`). -/
inductive CallResult
  | ok (resp : Response)
  | circuitOpen
  | raised
deriving DecidableEq, Repr

/-- Decision of the state check at the top of `call`, before the wrapped
function is awaited. -/
inductive AdmitDecision
  | proceed
  | failFast
deriving DecidableEq, Repr

/-- Lines 119-123 of the source: the pre-invocation phase of `call`.
If state is OPEN and `now - last_failure_time > timeout` (strict, line 120),
the state is set to HALF_OPEN and the call proceeds; if OPEN and not elapsed,
it fails fast; in CLOSED or HALF_OPEN it proceeds unconditionally.
The `none` branch under OPEN is unreachable from the initial state (OPEN is
only entered by a failure, which sets `last_failure_time`; see
`CircuitBreaker.wf_call`); in Python it would be a TypeError, modelled here
as fail-fast. -/
def admitPhase (b : CircuitBreaker) (now : Int) : AdmitDecision × CircuitBreaker :=
  match b.state with
  | .OPEN =>
    match b.last_failure_time with
    | some t =>
      if now - t > b.timeout then (.proceed, { b with state := .HALF_OPEN })
      else (.failFast, b)
    | none => (.failFast, b)
  | _ => (.proceed, b)

/-- Lines 125-142 of the source: bookkeeping after the wrapped function
returns (`r = some resp`) or raises (`r = none`). On return: if the state is
HALF_OPEN it becomes CLOSED and failure_count resets to 0, otherwise nothing
changes. On an exception: failure_count increments, last_failure_time is set
to now, and if failure_count reached the threshold the state becomes OPEN;
the exception is re-raised. -/
def completePhase (b : CircuitBreaker) (now : Int) (r : Option Response) :
    CallResult × CircuitBreaker :=
  match r with
  | some resp =>
    match b.state with
    | .HALF_OPEN => (.ok resp, { b with state := .CLOSED, failure_count := 0 })
    | _ => (.ok resp, b)
  | none =>
    if b.threshold ≤ b.failure_count + 1 then
      (.raised, { b with failure_count := b.failure_count + 1,
                         last_failure_time := some now, state := .OPEN })
    else
      (.raised, { b with failure_count := b.failure_count + 1,
                         last_failure_time := some now })

/-- Result of one full `CircuitBreaker.call`: the caller-visible result, the
breaker state afterwards, and whether the wrapped function was invoked
(backend contact). -/
structure CallStep where
  result : CallResult
  breaker : CircuitBreaker
  invoked : Bool
deriving DecidableEq, Repr

/-- The full `CircuitBreaker.call` (lines 117-142): the admit phase followed,
when admitted, by invoking the wrapped function and the completion phase.
`r` is the wrapped function's outcome: `some resp` if it returns a response,
`none` if it raises. -/
def CircuitBreaker.call (b : CircuitBreaker) (now : Int) (r : Option Response) : CallStep :=
  match admitPhase b now with
  | (.failFast, b1) => ⟨.circuitOpen, b1, false⟩
  | (.proceed, b1) => ⟨(completePhase b1 now r).1, (completePhase b1 now r).2, true⟩

/-- Outcome of one low-level HTTP attempt inside `make_request`: either a
well-formed response of any status, or a raised `httpx.RequestError`
(connection refusal, reset, timeout — a transient transport failure). -/
inductive AttemptResult
  | success (resp : Response)
  | requestError
deriving DecidableEq, Repr

/-- Observable trace of one `make_request` run: the returned response
(`none` means the last transport error was re-raised), the number of backend
attempts made, and the list of backoff sleeps performed, in seconds and in
order. -/
structure RequestTrace where
  result : Option Response
  attemptsMade : Nat
  sleeps : List Nat
deriving DecidableEq, Repr

/-- The retry loop of `make_request` (lines 212-232):
`for attempt in range(retry_count)` — return the response of the first
attempt that does not raise; after a failed attempt that is not the last,
sleep `2 ** attempt` seconds; after the last failure re-raise. `i` is the
current attempt index and `fuel` the number of attempts remaining
(`fuel = retry_count - i` at every call from `makeRequest`). -/
def makeRequestGo (retry_count : Nat) (attempts : Nat → AttemptResult) :
    Nat → Nat → RequestTrace
  | i, 0 => ⟨none, i, []⟩
  | i, fuel + 1 =>
    match attempts i with
    | .success resp => ⟨some resp, i + 1, []⟩
    | .requestError =>
      if i < retry_count - 1 then
        ⟨(makeRequestGo retry_count attempts (i + 1) fuel).result,
         (makeRequestGo retry_count attempts (i + 1) fuel).attemptsMade,
         2 ^ i :: (makeRequestGo retry_count attempts (i + 1) fuel).sleeps⟩
      else
        makeRequestGo retry_count attempts (i + 1) fuel

/-- One logical `make_request` run: the loop started at attempt 0 with
`retry_count` attempts available. (`retry_count = 0` never occurs: the
service registry configures 2 and 3.) -/
def makeRequest (retry_count : Nat) (attempts : Nat → AttemptResult) : RequestTrace :=
  makeRequestGo retry_count attempts 0 retry_count

/-- Per-service configuration (`ServiceConfig` dataclass, lines 64-71,
instantiated in `ServiceRegistry.__init__`, lines 147-165). -/
structure ServiceConfig where
  name : String
  url : String
  timeout : Int
  retry_count : Nat
  circuit_breaker_threshold : Nat
deriving DecidableEq, Repr

/-- The "data-processor" entry of the service registry. -/
def dataProcessorConfig : ServiceConfig :=
  ⟨"data-processor", "http://data-processor-service", 60, 2, 5⟩

/-- The "analytics-engine" entry of the service registry. -/
def analyticsEngineConfig : ServiceConfig :=
  ⟨"analytics-engine", "http://analytics-engine-service", 30, 3, 5⟩

/-- Modelled from the spec: the per-(route, client key) token bucket of the
rate limiter — the admission logic itself lives in the external `slowapi`
dependency, only its configuration (`@limiter.limit("10/minute")`, lines
236-250 and 360-366) is in the repository. Fields follow spec section 3:
`remaining_tokens` and `window_start`. -/
structure RateLimitBucket where
  remaining_tokens : Nat
  window_start : Int
deriving DecidableEq, Repr

/-- A bucket for a key that has not been seen in the current window:
full capacity, window starting now. -/
def RateLimitBucket.fresh (capacity : Nat) (now : Int) : RateLimitBucket :=
  ⟨capacity, now⟩

/-- Result of one admission check. -/
inductive AdmitResult
  | admitted
  | rejected (retry_after : Int)
deriving DecidableEq, Repr

/-- Modelled from the spec: the token-bucket admission check of the rate
limiter (spec section 4.4; the implementation is in the external `slowapi`
dependency). Lazy check-time refill: once the window has elapsed the bucket
is reset to full capacity with a new window start; then a request is admitted
if a token remains, consuming it, and rejected otherwise with
`retry_after` = time remaining in the current window. -/
def admitRequest (capacity : Nat) (window : Int) (bk : RateLimitBucket) (now : Int) :
    AdmitResult × RateLimitBucket :=
  if window ≤ now - bk.window_start then
    if 0 < capacity then
      (.admitted, ⟨capacity - 1, now⟩)
    else
      (.rejected (now + window - now), ⟨capacity, now⟩)
  else
    if 0 < bk.remaining_tokens then
      (.admitted, ⟨bk.remaining_tokens - 1, bk.window_start⟩)
    else
      (.rejected (bk.window_start + window - now), bk)

/-- Caller-visible outcome of one dispatched request, following the route
handlers (lines 360-393): the backend response proxied with status and body
preserved, a rate-limit rejection (raised by the limiter before the handler
body runs), the circuit-open 503, or the transport-failure 503 raised when
the re-raised `httpx.RequestError` is caught by the handler. -/
inductive DispatchResult
  | success (resp : Response)
  | rateLimited (retry_after : Int)
  | circuitOpen
  | transportFailure
deriving DecidableEq, Repr

/-- Full observable effect of one dispatched request. -/
structure DispatchStep where
  result : DispatchResult
  bucket : RateLimitBucket
  breaker : CircuitBreaker
  backendAttempts : Nat
deriving DecidableEq, Repr

/-- One request through a rate-limited proxy route (`proxy_data_process`,
lines 360-393): the limiter decorator runs before the handler body, so a
rejected request never executes `proxy_request`; an admitted request runs
`circuit_breaker.call(make_request)` exactly once and the handler maps its
outcome to the response. -/
def dispatch (capacity : Nat) (window : Int) (retry_count : Nat)
    (bk : RateLimitBucket) (b : CircuitBreaker) (now : Int)
    (attempts : Nat → AttemptResult) : DispatchStep :=
  match admitRequest capacity window bk now with
  | (.rejected ra, bk1) => ⟨.rateLimited ra, bk1, b, 0⟩
  | (.admitted, bk1) =>
    match b.call now (makeRequest retry_count attempts).result with
    | ⟨.ok resp, b1, inv⟩ =>
      ⟨.success resp, bk1, b1, if inv then (makeRequest retry_count attempts).attemptsMade else 0⟩
    | ⟨.circuitOpen, b1, inv⟩ =>
      ⟨.circuitOpen, bk1, b1, if inv then (makeRequest retry_count attempts).attemptsMade else 0⟩
    | ⟨.raised, b1, inv⟩ =>
      ⟨.transportFailure, bk1, b1, if inv then (makeRequest retry_count attempts).attemptsMade else 0⟩

/-- Sequence of dispatched requests against shared bucket and breaker state,
returning the per-request results and the final state. -/
def dispatchSeq (capacity : Nat) (window : Int) (retry_count : Nat)
    (bk : RateLimitBucket) (b : CircuitBreaker) :
    List (Int × (Nat → AttemptResult)) → List DispatchResult × RateLimitBucket × CircuitBreaker
  | [] => ([], bk, b)
  | (t, att) :: rest =>
    ((dispatch capacity window retry_count bk b t att).result ::
      (dispatchSeq capacity window retry_count
        (dispatch capacity window retry_count bk b t att).bucket
        (dispatch capacity window retry_count bk b t att).breaker rest).1,
     (dispatchSeq capacity window retry_count
        (dispatch capacity window retry_count bk b t att).bucket
        (dispatch capacity window retry_count bk b t att).breaker rest).2)

/-- Sequence of breaker calls (each given as a time and the wrapped
function's outcome), returning the final breaker state. -/
def runCalls (b : CircuitBreaker) : List (Int × Option Response) → CircuitBreaker
  | [] => b
  | (t, r) :: rest => runCalls (b.call t r).breaker rest

/-- Sequence of failing calls at the given times. -/
def applyFailures (b : CircuitBreaker) (times : List Int) : CircuitBreaker :=
  runCalls b (times.map fun t => (t, (none : Option Response)))

/-- The failure responses constructed in the gateway source: line 198
(`HTTPException(404, "Service ... not found")`), line 123
(`HTTPException(503, "Service temporarily unavailable")`), and lines 393,
417, 453, 476 (`HTTPException(503, "... service unavailable")`). -/
inductive GatewayFailure
  | notFound (service_name : String)
  | circuitOpen
  | transportUnavailable (service_label : String)
deriving DecidableEq, Repr

/-- A rendered error response: status code and the JSON body as a key-value
list. -/
structure ErrorResponse where
  status_code : Nat
  body : List (String × String)
deriving DecidableEq, Repr

/-- FastAPI renders a raised HTTPException(status_code, detail) as a JSON
object with the single field "detail" holding the detail string. -/
def httpExceptionResponse (status : Nat) (detail : String) : ErrorResponse :=
  ⟨status, [("detail", detail)]⟩

/-- The body and status each gateway failure produces, from the
HTTPException raises in the source. -/
def failureResponse : GatewayFailure → ErrorResponse
  | .notFound s => httpExceptionResponse 404 ("Service " ++ s ++ " not found")
  | .circuitOpen => httpExceptionResponse 503 "Service temporarily unavailable"
  | .transportUnavailable label => httpExceptionResponse 503 (label ++ " service unavailable")

/-- An attempt function whose every attempt returns HTTP 200. -/
def okCall : Nat → AttemptResult := fun _ => .success ⟨200, "ok"⟩

/-- An attempt function whose every attempt raises a transport error. -/
def alwaysError : Nat → AttemptResult := fun _ => .requestError

/-- An attempt function whose every attempt returns a backend 422
application error. -/
def always422 : Nat → AttemptResult := fun _ => .success ⟨422, "unprocessable"⟩

/-- Breaker states that can be observed OPEN or HALF_OPEN always carry a
failure count at threshold and a recorded failure time (this justifies the
hypotheses of the OPEN/HALF_OPEN lemmas below and makes the `none` branch of
`admitPhase` under OPEN unreachable). -/
def CircuitBreaker.wf (b : CircuitBreaker) : Prop :=
  (b.state = .OPEN ∨ b.state = .HALF_OPEN) →
    (b.threshold ≤ b.failure_count ∧ b.last_failure_time ≠ none)

lemma wf_init (threshold : Nat) (timeout : Int) :
    (CircuitBreaker.init threshold timeout).wf := by
  intro h
  rcases h with h | h <;> simp [CircuitBreaker.init] at h

lemma call_closed_success (b : CircuitBreaker) (now : Int) (resp : Response)
    (hb : b.state = .CLOSED) :
    b.call now (some resp) = ⟨.ok resp, b, true⟩ := by
  obtain ⟨th, tmo, fc, lf, st⟩ := b
  subst hb
  rfl

lemma call_closed_fail_stay (b : CircuitBreaker) (now : Int)
    (hb : b.state = .CLOSED) (hc : b.failure_count + 1 < b.threshold) :
    b.call now none =
      ⟨.raised, { b with failure_count := b.failure_count + 1,
                         last_failure_time := some now }, true⟩ := by
  obtain ⟨th, tmo, fc, lf, st⟩ := b
  subst hb
  have hc' : fc + 1 < th := hc
  have h : ¬ th ≤ fc + 1 := by omega
  simp [CircuitBreaker.call, admitPhase, completePhase, h]

lemma call_closed_fail_open (b : CircuitBreaker) (now : Int)
    (hb : b.state = .CLOSED) (hc : b.threshold ≤ b.failure_count + 1) :
    b.call now none =
      ⟨.raised, { b with failure_count := b.failure_count + 1,
                         last_failure_time := some now, state := .OPEN }, true⟩ := by
  obtain ⟨th, tmo, fc, lf, st⟩ := b
  subst hb
  have hc' : th ≤ fc + 1 := hc
  simp [CircuitBreaker.call, admitPhase, completePhase, hc']

lemma call_open_stays (b : CircuitBreaker) (now t : Int) (r : Option Response)
    (hs : b.state = .OPEN) (hl : b.last_failure_time = some t)
    (ht : now - t ≤ b.timeout) :
    b.call now r = ⟨.circuitOpen, b, false⟩ := by
  obtain ⟨th, tmo, fc, lf, st⟩ := b
  subst hs
  subst hl
  have ht' : now - t ≤ tmo := ht
  have h : ¬ now - t > tmo := by omega
  simp [CircuitBreaker.call, admitPhase, h]

lemma admitPhase_open_elapsed (b : CircuitBreaker) (now t : Int)
    (hs : b.state = .OPEN) (hl : b.last_failure_time = some t)
    (ht : b.timeout < now - t) :
    admitPhase b now = (.proceed, { b with state := .HALF_OPEN }) := by
  obtain ⟨th, tmo, fc, lf, st⟩ := b
  subst hs
  subst hl
  have ht' : tmo < now - t := ht
  have h : now - t > tmo := by omega
  simp [admitPhase, h]

lemma call_open_elapsed_success (b : CircuitBreaker) (now t : Int) (resp : Response)
    (hs : b.state = .OPEN) (hl : b.last_failure_time = some t)
    (ht : b.timeout < now - t) :
    b.call now (some resp) =
      ⟨.ok resp, { b with state := .CLOSED, failure_count := 0 }, true⟩ := by
  obtain ⟨th, tmo, fc, lf, st⟩ := b
  subst hs
  subst hl
  have ht' : tmo < now - t := ht
  have h : now - t > tmo := by omega
  simp [CircuitBreaker.call, admitPhase, completePhase, h]

lemma call_open_elapsed_fail (b : CircuitBreaker) (now t : Int)
    (hs : b.state = .OPEN) (hl : b.last_failure_time = some t)
    (ht : b.timeout < now - t) (hc : b.threshold ≤ b.failure_count + 1) :
    b.call now none =
      ⟨.raised, { b with failure_count := b.failure_count + 1,
                         last_failure_time := some now, state := .OPEN }, true⟩ := by
  obtain ⟨th, tmo, fc, lf, st⟩ := b
  subst hs
  subst hl
  have ht' : tmo < now - t := ht
  have h : now - t > tmo := by omega
  have hc' : th ≤ fc + 1 := hc
  simp [CircuitBreaker.call, admitPhase, completePhase, h, hc']

lemma call_half_open_success (b : CircuitBreaker) (now : Int) (resp : Response)
    (hb : b.state = .HALF_OPEN) :
    b.call now (some resp) =
      ⟨.ok resp, { b with state := .CLOSED, failure_count := 0 }, true⟩ := by
  obtain ⟨th, tmo, fc, lf, st⟩ := b
  subst hb
  rfl

lemma call_half_open_fail (b : CircuitBreaker) (now : Int)
    (hb : b.state = .HALF_OPEN) (hc : b.threshold ≤ b.failure_count + 1) :
    b.call now none =
      ⟨.raised, { b with failure_count := b.failure_count + 1,
                         last_failure_time := some now, state := .OPEN }, true⟩ := by
  obtain ⟨th, tmo, fc, lf, st⟩ := b
  subst hb
  have hc' : th ≤ fc + 1 := hc
  simp [CircuitBreaker.call, admitPhase, completePhase, hc']

lemma wf_call (b : CircuitBreaker) (now : Int) (r : Option Response)
    (h : b.wf) : ((b.call now r).breaker).wf := by
  obtain ⟨th, tmo, fc, lf, st⟩ := b
  cases st with
  | CLOSED =>
    cases r with
    | some resp =>
      rw [call_closed_success _ now resp rfl]
      exact h
    | none =>
      by_cases hc : th ≤ fc + 1
      · rw [call_closed_fail_open _ now rfl hc]
        intro _
        exact ⟨hc, by simp⟩
      · rw [call_closed_fail_stay _ now rfl (show fc + 1 < th by omega)]
        intro hcase
        rcases hcase with hcase | hcase <;> simp at hcase
  | OPEN =>
    have hwf := h (Or.inl rfl)
    have hth : th ≤ fc := hwf.1
    cases lf with
    | none => exact absurd rfl hwf.2
    | some t =>
      by_cases ht : now - t ≤ tmo
      · rw [call_open_stays _ now t r rfl rfl ht]
        exact h
      · cases r with
        | some resp =>
          rw [call_open_elapsed_success _ now t resp rfl rfl
            (show tmo < now - t by omega)]
          intro hcase
          rcases hcase with hcase | hcase <;> simp at hcase
        | none =>
          rw [call_open_elapsed_fail _ now t rfl rfl
            (show tmo < now - t by omega) (show th ≤ fc + 1 by omega)]
          intro _
          exact ⟨show th ≤ fc + 1 by omega, by simp⟩
  | HALF_OPEN =>
    have hwf := h (Or.inr rfl)
    have hth : th ≤ fc := hwf.1
    cases r with
    | some resp =>
      rw [call_half_open_success _ now resp rfl]
      intro hcase
      rcases hcase with hcase | hcase <;> simp at hcase
    | none =>
      rw [call_half_open_fail _ now rfl (show th ≤ fc + 1 by omega)]
      intro _
      exact ⟨show th ≤ fc + 1 by omega, by simp⟩

lemma applyFailures_cons (b : CircuitBreaker) (t : Int) (ts : List Int) :
    applyFailures b (t :: ts) = applyFailures (b.call t none).breaker ts := rfl

lemma applyFailures_nil (b : CircuitBreaker) : applyFailures b [] = b := rfl

lemma applyFailures_opens (ts : List Int) :
    ∀ (b : CircuitBreaker) (tlast : Int), b.state = .CLOSED →
      b.failure_count + ts.length + 1 = b.threshold →
      applyFailures b (ts ++ [tlast]) =
        { b with state := .OPEN, failure_count := b.threshold,
                 last_failure_time := some tlast } := by
  induction ts with
  | nil =>
    intro b tlast hb hc
    have hc' : b.failure_count + 1 = b.threshold := by simpa using hc
    rw [List.nil_append, applyFailures_cons]
    rw [call_closed_fail_open b tlast hb (by omega)]
    rw [applyFailures_nil]
    rw [hc']
  | cons t ts ih =>
    intro b tlast hb hc
    have hc' : b.failure_count + (ts.length + 1) + 1 = b.threshold := by simpa using hc
    rw [List.cons_append, applyFailures_cons]
    rw [call_closed_fail_stay b t hb (by omega)]
    exact ih { b with failure_count := b.failure_count + 1, last_failure_time := some t }
      tlast hb (by show b.failure_count + 1 + ts.length + 1 = b.threshold; omega)

lemma makeRequestGo_allFail (retry_count : Nat) (attempts : Nat → AttemptResult)
    (h : ∀ j, j < retry_count → attempts j = .requestError) :
    ∀ fuel i, i + fuel ≤ retry_count →
      (makeRequestGo retry_count attempts i fuel).result = none ∧
      (makeRequestGo retry_count attempts i fuel).attemptsMade = i + fuel := by
  intro fuel
  induction fuel with
  | zero =>
    intro i _
    exact ⟨rfl, rfl⟩
  | succ n ih =>
    intro i hi
    have hatt : attempts i = .requestError := h i (by omega)
    have h2 := ih (i + 1) (by omega)
    simp only [makeRequestGo, hatt]
    by_cases hlt : i < retry_count - 1
    · rw [if_pos hlt]
      exact ⟨h2.1, by rw [show (⟨_, _, _⟩ : RequestTrace).attemptsMade =
        (makeRequestGo retry_count attempts (i + 1) n).attemptsMade from rfl, h2.2]; omega⟩
    · rw [if_neg hlt]
      exact ⟨h2.1, by rw [h2.2]; omega⟩

lemma makeRequestGo_attemptsMade_le (retry_count : Nat) (attempts : Nat → AttemptResult) :
    ∀ fuel i, i + fuel ≤ retry_count →
      (makeRequestGo retry_count attempts i fuel).attemptsMade ≤ retry_count := by
  intro fuel
  induction fuel with
  | zero =>
    intro i hi
    show i ≤ retry_count
    omega
  | succ n ih =>
    intro i hi
    simp only [makeRequestGo]
    cases hatt : attempts i with
    | success resp =>
      show i + 1 ≤ retry_count
      omega
    | requestError =>
      by_cases hlt : i < retry_count - 1
      · rw [if_pos hlt]
        exact ih (i + 1) (by omega)
      · rw [if_neg hlt]
        exact ih (i + 1) (by omega)

lemma makeRequestGo_sleeps (retry_count : Nat) (attempts : Nat → AttemptResult) :
    ∀ fuel i j d, i + fuel ≤ retry_count →
      (makeRequestGo retry_count attempts i fuel).sleeps.get? j = some d →
      d = 2 ^ (i + j) ∧ i + j < retry_count := by
  intro fuel
  induction fuel with
  | zero =>
    intro i j d _ hg
    simp [makeRequestGo] at hg
  | succ n ih =>
    intro i j d hi hg
    simp only [makeRequestGo] at hg
    cases hatt : attempts i with
    | success resp =>
      rw [hatt] at hg
      simp at hg
    | requestError =>
      rw [hatt] at hg
      by_cases hlt : i < retry_count - 1
      · rw [if_pos hlt] at hg
        cases j with
        | zero =>
          simp at hg
          exact ⟨hg.symm, by omega⟩
        | succ m =>
          simp only [List.get?_cons_succ] at hg
          have h2 := ih (i + 1) m d (by omega) hg
          refine ⟨?_, by omega⟩
          rw [h2.1]
          congr 1
          omega
      · rw [if_neg hlt] at hg
        have hn : n = 0 := by omega
        subst hn
        simp [makeRequestGo] at hg

/-- C1: after threshold consecutive transient failures reported through a
fresh breaker, its state is OPEN and the transition time is the time of the
final failure; every subsequent call made while no more than the reset
timeout has elapsed since the transition (so in particular every call made
strictly before it elapses) fails fast with the circuit-open error, leaves
the breaker unchanged, and never invokes the wrapped operation. -/
theorem C1_threshold_failures_open_breaker (threshold : Nat) (timeout : Int)
    (ts : List Int) (tlast : Int) (hlen : ts.length + 1 = threshold) :
    (applyFailures (CircuitBreaker.init threshold timeout) (ts ++ [tlast])).state = .OPEN ∧
    (applyFailures (CircuitBreaker.init threshold timeout) (ts ++ [tlast])).last_failure_time
      = some tlast ∧
    ∀ now r, now - tlast ≤ timeout →
      (applyFailures (CircuitBreaker.init threshold timeout) (ts ++ [tlast])).call now r =
        ⟨.circuitOpen, applyFailures (CircuitBreaker.init threshold timeout) (ts ++ [tlast]),
         false⟩ := by
  have h := applyFailures_opens ts (CircuitBreaker.init threshold timeout) tlast rfl
    (by show 0 + ts.length + 1 = threshold; omega)
  rw [h]
  refine ⟨rfl, rfl, ?_⟩
  intro now r hnow
  exact call_open_stays _ now tlast r rfl rfl hnow

/-- Witness for C1: threshold 2, timeout 60, failures at times 0 and 5; a
call at time 30 with a would-be healthy backend fails fast without contact. -/
theorem C1_threshold_failures_open_breaker_witness :
    (applyFailures (CircuitBreaker.init 2 60) ([0] ++ [5])).state = .OPEN ∧
    (applyFailures (CircuitBreaker.init 2 60) ([0] ++ [5])).last_failure_time = some 5 ∧
    (applyFailures (CircuitBreaker.init 2 60) ([0] ++ [5])).call 30 (some ⟨200, "ok"⟩) =
      ⟨.circuitOpen, applyFailures (CircuitBreaker.init 2 60) ([0] ++ [5]), false⟩ := by
  have h := C1_threshold_failures_open_breaker 2 60 [0] 5 (by decide)
  exact ⟨h.1, h.2.1, h.2.2 30 (some ⟨200, "ok"⟩) (by decide)⟩

/-- Counterexample for C2: at exactly `circuit_reset_timeout` elapsed
(breaker with timeout 60 opened at time 0, next call at time 60) the code
still fails fast — state stays OPEN, the wrapped operation is not invoked —
because line 120 of the source uses a strict comparison, contradicting the
claimed boundary case "now - last_transition_time ≥ circuit_reset_timeout". -/
theorem C2_boundary_counterexample :
    CircuitBreaker.call ⟨1, 60, 1, some 0, .OPEN⟩ 60 (some ⟨200, "ok"⟩) =
      ⟨.circuitOpen, ⟨1, 60, 1, some 0, .OPEN⟩, false⟩ := by decide

/-- C2 (amended): when the breaker is OPEN and strictly more than
`circuit_reset_timeout` has elapsed since the recorded failure time (the code
compares with a strict `>`; at exactly the timeout the call still fails
fast), the next call first transitions the state to HALF_OPEN and then
invokes the wrapped operation; a probe success transitions to CLOSED with
failure_count reset to 0, and a probe failure transitions back to OPEN with
the failure time reset to now. -/
theorem C2_reset_timeout_probe (b : CircuitBreaker) (now t : Int) (r : Option Response)
    (hs : b.state = .OPEN) (hl : b.last_failure_time = some t)
    (hc : b.threshold ≤ b.failure_count) (ht : b.timeout < now - t) :
    admitPhase b now = (.proceed, { b with state := .HALF_OPEN }) ∧
    (b.call now r).invoked = true ∧
    (∀ resp, r = some resp →
      (b.call now r).result = .ok resp ∧
      (b.call now r).breaker.state = .CLOSED ∧
      (b.call now r).breaker.failure_count = 0) ∧
    (r = none →
      (b.call now r).result = .raised ∧
      (b.call now r).breaker.state = .OPEN ∧
      (b.call now r).breaker.last_failure_time = some now) := by
  refine ⟨admitPhase_open_elapsed b now t hs hl ht, ?_, ?_, ?_⟩
  · cases r with
    | some resp => rw [call_open_elapsed_success b now t resp hs hl ht]
    | none => rw [call_open_elapsed_fail b now t hs hl ht (by omega)]
  · intro resp hr
    subst hr
    rw [call_open_elapsed_success b now t resp hs hl ht]
    exact ⟨rfl, rfl, rfl⟩
  · intro hr
    subst hr
    rw [call_open_elapsed_fail b now t hs hl ht (by omega)]
    exact ⟨rfl, rfl, rfl⟩

/-- Witness for C2 (amended): breaker with threshold 2 opened at time 0 and
timeout 60, probed at time 61: a successful probe closes it with count 0, a
failing probe reopens it with failure time 61. -/
theorem C2_reset_timeout_probe_witness :
    (CircuitBreaker.call ⟨2, 60, 2, some 0, .OPEN⟩ 61 (some ⟨200, "ok"⟩)).breaker.state
      = .CLOSED ∧
    (CircuitBreaker.call ⟨2, 60, 2, some 0, .OPEN⟩ 61 (some ⟨200, "ok"⟩)).breaker.failure_count
      = 0 ∧
    (CircuitBreaker.call ⟨2, 60, 2, some 0, .OPEN⟩ 61 none).breaker.state = .OPEN ∧
    (CircuitBreaker.call ⟨2, 60, 2, some 0, .OPEN⟩ 61 none).breaker.last_failure_time
      = some 61 := by
  have h1 := C2_reset_timeout_probe ⟨2, 60, 2, some 0, .OPEN⟩ 61 0 (some ⟨200, "ok"⟩)
    rfl rfl (by decide) (by decide)
  have h2 := C2_reset_timeout_probe ⟨2, 60, 2, some 0, .OPEN⟩ 61 0 none
    rfl rfl (by decide) (by decide)
  exact ⟨(h1.2.2.1 _ rfl).2.1, (h1.2.2.1 _ rfl).2.2, (h2.2.2.2 rfl).2.1, (h2.2.2.2 rfl).2.2⟩

/-- Counterexample for C3: a first caller's admit check at time 61 switches
the OPEN (since time 0, timeout 60) breaker to HALF_OPEN and proceeds as the
probe; a second caller checking the breaker while that probe is in flight is
also admitted (`proceed`) and its call invokes the backend — it does not
fail fast, so there is no single-flight guard. -/
theorem C3_no_single_flight_counterexample :
    (admitPhase ⟨1, 60, 1, some 0, .OPEN⟩ 61).1 = .proceed ∧
    ((admitPhase ⟨1, 60, 1, some 0, .OPEN⟩ 61).2).state = .HALF_OPEN ∧
    (admitPhase (admitPhase ⟨1, 60, 1, some 0, .OPEN⟩ 61).2 61).1 = .proceed ∧
    (CircuitBreaker.call (admitPhase ⟨1, 60, 1, some 0, .OPEN⟩ 61).2 61
      (some ⟨200, "ok"⟩)).invoked = true := by decide

/-- C3 (amended): while a service's breaker is HALF_OPEN with a probe in
flight, every additional caller is also admitted and dispatches its own
trial call to the backend (the state check at the top of `call` only fails
fast in state OPEN); the code has no single-flight guard. -/
theorem C3_half_open_admits_all (b : CircuitBreaker) (now : Int) (r : Option Response)
    (hb : b.state = .HALF_OPEN) :
    admitPhase b now = (.proceed, b) ∧ (b.call now r).invoked = true := by
  obtain ⟨th, tmo, fc, lf, st⟩ := b
  subst hb
  refine ⟨rfl, ?_⟩
  cases r <;> rfl

/-- Witness for C3 (amended): a concrete HALF_OPEN breaker admits a second
caller which contacts the backend. -/
theorem C3_half_open_admits_all_witness :
    admitPhase ⟨1, 60, 1, some 0, .HALF_OPEN⟩ 10 = (.proceed, ⟨1, 60, 1, some 0, .HALF_OPEN⟩) ∧
    (CircuitBreaker.call ⟨1, 60, 1, some 0, .HALF_OPEN⟩ 10 (some ⟨200, "ok"⟩)).invoked = true :=
  C3_half_open_admits_all ⟨1, 60, 1, some 0, .HALF_OPEN⟩ 10 (some ⟨200, "ok"⟩) rfl

/-- C4: when the first attempt completes with a well-formed backend response
of any status (the loop catches only `httpx.RequestError`), `make_request`
returns it immediately with exactly one attempt and no backoff sleep, status
and body unchanged; and the breaker treats the returned response as success,
passing it through with its CLOSED state and failure count untouched. -/
theorem C4_application_errors_unretried (retry_count : Nat)
    (attempts : Nat → AttemptResult) (resp : Response) (b : CircuitBreaker) (now : Int)
    (hrc : 1 ≤ retry_count) (h0 : attempts 0 = .success resp) (hb : b.state = .CLOSED) :
    makeRequest retry_count attempts = ⟨some resp, 1, []⟩ ∧
    b.call now (some resp) = ⟨.ok resp, b, true⟩ := by
  constructor
  · unfold makeRequest
    cases retry_count with
    | zero => omega
    | succ n => simp [makeRequestGo, h0]
  · exact call_closed_success b now resp hb

/-- Witness for C4: a backend 422 is returned unretried and uncounted. -/
theorem C4_application_errors_unretried_witness :
    makeRequest 2 always422 = ⟨some ⟨422, "unprocessable"⟩, 1, []⟩ ∧
    CircuitBreaker.call (CircuitBreaker.init 5 60) 0 (some ⟨422, "unprocessable"⟩) =
      ⟨.ok ⟨422, "unprocessable"⟩, CircuitBreaker.init 5 60, true⟩ :=
  C4_application_errors_unretried 2 always422 ⟨422, "unprocessable"⟩
    (CircuitBreaker.init 5 60) 0 (by omega) rfl rfl

/-- C5: the breaker wraps the whole retry loop in one `call` per logical
request; when every attempt raises a transient transport error the loop
re-raises only the final failure, the breaker's failure count increments by
exactly one, and the caller receives the re-raised transport error. -/
theorem C5_single_failure_signal (retry_count : Nat) (attempts : Nat → AttemptResult)
    (b : CircuitBreaker) (now : Int)
    (hfail : ∀ j, j < retry_count → attempts j = .requestError)
    (hb : b.state = .CLOSED) :
    (makeRequest retry_count attempts).result = none ∧
    (b.call now (makeRequest retry_count attempts).result).result = .raised ∧
    (b.call now (makeRequest retry_count attempts).result).breaker.failure_count =
      b.failure_count + 1 := by
  have hres : (makeRequest retry_count attempts).result = none :=
    (makeRequestGo_allFail retry_count attempts hfail retry_count 0 (by omega)).1
  rw [hres]
  by_cases hth : b.threshold ≤ b.failure_count + 1
  · rw [call_closed_fail_open b now hb hth]
    exact ⟨rfl, rfl, rfl⟩
  · rw [call_closed_fail_stay b now hb (by omega)]
    exact ⟨rfl, rfl, rfl⟩

/-- Witness for C5: two failing attempts produce one failure signal on a
fresh breaker. -/
theorem C5_single_failure_signal_witness :
    (makeRequest 2 alwaysError).result = none ∧
    (CircuitBreaker.call (CircuitBreaker.init 5 60) 0
      (makeRequest 2 alwaysError).result).result = .raised ∧
    (CircuitBreaker.call (CircuitBreaker.init 5 60) 0
      (makeRequest 2 alwaysError).result).breaker.failure_count =
      (CircuitBreaker.init 5 60).failure_count + 1 :=
  C5_single_failure_signal 2 alwaysError (CircuitBreaker.init 5 60) 0 (fun _ _ => rfl) rfl

/-- C6: at most `retry_count` sequential attempts are made for one logical
request, and the backoff delay recorded before retry attempt k (k-th retry,
1-indexed) equals base_delay * 2^(k-1) seconds with base_delay = 1 s
(`asyncio.sleep(2 ** attempt)` in the source); since a delay only precedes an
attempt that is actually made, every delay is bounded by 2^retry_count
seconds — the maximum implied by the attempt bound (no separate cap constant
exists in the code). -/
theorem C6_bounded_exponential_backoff (retry_count : Nat) (attempts : Nat → AttemptResult) :
    (makeRequest retry_count attempts).attemptsMade ≤ retry_count ∧
    ∀ k d, 1 ≤ k → (makeRequest retry_count attempts).sleeps.get? (k - 1) = some d →
      d = 1 * 2 ^ (k - 1) ∧ d ≤ 2 ^ retry_count := by
  constructor
  · exact makeRequestGo_attemptsMade_le retry_count attempts retry_count 0 (by omega)
  · intro k d _ hg
    have h2 := makeRequestGo_sleeps retry_count attempts retry_count 0 (k - 1) d
      (by omega) hg
    have h3 := h2.2
    constructor
    · simpa using h2.1
    · calc d = 2 ^ (0 + (k - 1)) := h2.1
        _ ≤ 2 ^ retry_count := Nat.pow_le_pow_right (by omega) (by omega)

/-- Witness for C6: with three failing attempts the trace makes 3 attempts
and the delay before retry 2 is 2 = 1 * 2^1 seconds, within the bound. -/
theorem C6_bounded_exponential_backoff_witness :
    (makeRequest 3 alwaysError).attemptsMade ≤ 3 ∧
    ((2 : Nat) = 1 * 2 ^ (2 - 1) ∧ (2 : Nat) ≤ 2 ^ 3) :=
  ⟨(C6_bounded_exponential_backoff 3 alwaysError).1,
   (C6_bounded_exponential_backoff 3 alwaysError).2 2 2 (by omega) (by decide)⟩

/-- C7: a rejected admission never touches the breaker or the backend and
surfaces a positive retry_after, and for a route configured with capacity 10
per 60-second window a fresh key is admitted exactly 10 times, the 11th
request is rejected with retry_after 60 > 0, and a request arriving once the
window has elapsed (time 60) is admitted again. The token-bucket admission
logic is modelled from the spec, as it lives in the external slowapi
dependency. -/
theorem C7_rate_limiter (capacity : Nat) (window : Int) (retry_count : Nat)
    (bk : RateLimitBucket) (b : CircuitBreaker) (now : Int)
    (attempts : Nat → AttemptResult) (ra : Int)
    (hw : 0 < window)
    (hrej : (admitRequest capacity window bk now).1 = .rejected ra) :
    ((dispatch capacity window retry_count bk b now attempts).breaker = b ∧
     (dispatch capacity window retry_count bk b now attempts).backendAttempts = 0 ∧
     (dispatch capacity window retry_count bk b now attempts).result = .rateLimited ra ∧
     0 < ra) ∧
    (dispatchSeq 10 60 2 (RateLimitBucket.fresh 10 0) (CircuitBreaker.init 5 60)
        (List.replicate 11 ((0 : Int), okCall) ++ [((60 : Int), okCall)])).1 =
      List.replicate 10 (DispatchResult.success ⟨200, "ok"⟩) ++
        [DispatchResult.rateLimited 60, DispatchResult.success ⟨200, "ok"⟩] := by
  constructor
  · have hpos : 0 < ra := by
      unfold admitRequest at hrej
      by_cases h1 : window ≤ now - bk.window_start
      · rw [if_pos h1] at hrej
        by_cases h2 : 0 < capacity
        · rw [if_pos h2] at hrej
          simp at hrej
        · rw [if_neg h2] at hrej
          have : now + window - now = ra := by simpa using hrej
          omega
      · rw [if_neg h1] at hrej
        by_cases h2 : 0 < bk.remaining_tokens
        · rw [if_pos h2] at hrej
          simp at hrej
        · rw [if_neg h2] at hrej
          have : bk.window_start + window - now = ra := by simpa using hrej
          omega
    have hd : dispatch capacity window retry_count bk b now attempts =
        ⟨.rateLimited ra, (admitRequest capacity window bk now).2, b, 0⟩ := by
      unfold dispatch
      rcases hA : admitRequest capacity window bk now with ⟨res, bk1⟩
      rw [hA] at hrej
      cases res with
      | admitted => exact absurd hrej (by simp)
      | rejected x =>
        have hx : x = ra := by simpa using hrej
        subst hx
        rfl
    rw [hd]
    exact ⟨rfl, rfl, rfl, hpos⟩
  · decide

/-- Witness for C7: an exhausted bucket mid-window at time 30 rejects with
retry_after 30 and the dispatcher leaves the breaker untouched with zero
backend attempts. -/
theorem C7_rate_limiter_witness :
    (dispatch 10 60 2 ⟨0, 0⟩ (CircuitBreaker.init 5 60) 30 okCall).breaker =
      CircuitBreaker.init 5 60 ∧
    (dispatch 10 60 2 ⟨0, 0⟩ (CircuitBreaker.init 5 60) 30 okCall).backendAttempts = 0 ∧
    (dispatch 10 60 2 ⟨0, 0⟩ (CircuitBreaker.init 5 60) 30 okCall).result =
      .rateLimited 30 ∧
    (0 : Int) < 30 :=
  (C7_rate_limiter 10 60 2 ⟨0, 0⟩ (CircuitBreaker.init 5 60) 30 okCall 30
    (by decide) (by decide)).1

/-- Counterexample for C8: the circuit-open failure response — a failure
response returned to callers — has body {"detail": "Service temporarily
unavailable"}: it carries neither an `error_code` field from the claimed set
nor a `request_id` field. -/
theorem C8_error_code_counterexample :
    (failureResponse .circuitOpen).status_code = 503 ∧
    (failureResponse .circuitOpen).body = [("detail", "Service temporarily unavailable")] ∧
    "error_code" ∉ (failureResponse .circuitOpen).body.map Prod.fst ∧
    "request_id" ∉ (failureResponse .circuitOpen).body.map Prod.fst := by decide

/-- C8 (amended): every failure response the gateway code constructs carries
a single human-readable `detail` field (FastAPI's HTTPException body) with
status 404 or 503; no machine-readable `error_code` and no `request_id`
appear in the body (the request identifier travels in the X-Request-ID
response header added by the logging middleware, not in the body). -/
theorem C8_detail_only_bodies (f : GatewayFailure) :
    (failureResponse f).body.map Prod.fst = ["detail"] ∧
    ((failureResponse f).status_code = 404 ∨ (failureResponse f).status_code = 503) := by
  cases f with
  | notFound s => exact ⟨rfl, Or.inl rfl⟩
  | circuitOpen => exact ⟨rfl, Or.inr rfl⟩
  | transportUnavailable label => exact ⟨rfl, Or.inr rfl⟩

/-- C9: a successful call while the breaker is CLOSED leaves the whole
breaker — in particular failure_count — unchanged (the count resets only on
the HALF_OPEN to CLOSED transition), so failures separated by successes
still accumulate: a threshold-2 breaker opens after failures at times 0 and
2 despite a success at time 1 between them. -/
theorem C9_nonconsecutive_failures_accumulate (b : CircuitBreaker) (now : Int)
    (resp : Response) (hb : b.state = .CLOSED) :
    (b.call now (some resp)).breaker = b ∧
    runCalls (CircuitBreaker.init 2 60) [(0, none), (1, some ⟨200, "ok"⟩), (2, none)] =
      ⟨2, 60, 2, some 2, .OPEN⟩ :=
  ⟨by rw [call_closed_success b now resp hb], by decide⟩

/-- Witness for C9: a CLOSED breaker with one accumulated failure is
untouched by a success. -/
theorem C9_nonconsecutive_failures_accumulate_witness :
    (CircuitBreaker.call ⟨2, 60, 1, some 0, .CLOSED⟩ 5 (some ⟨200, "ok"⟩)).breaker =
      ⟨2, 60, 1, some 0, .CLOSED⟩ ∧
    runCalls (CircuitBreaker.init 2 60) [(0, none), (1, some ⟨200, "ok"⟩), (2, none)] =
      ⟨2, 60, 2, some 2, .OPEN⟩ :=
  C9_nonconsecutive_failures_accumulate ⟨2, 60, 1, some 0, .CLOSED⟩ 5 ⟨200, "ok"⟩ rfl

/-- C10: while the breaker is HALF_OPEN, any attempt that completes with an
HTTP response — any status, including a backend 500 — is treated as probe
success: the breaker transitions to CLOSED with failure_count reset to 0 and
the response is returned; only a raised transport exception is a probe
failure, which (at threshold) returns the breaker to OPEN. -/
theorem C10_half_open_response_is_success (b : CircuitBreaker) (now : Int)
    (resp : Response) (hb : b.state = .HALF_OPEN) :
    (b.call now (some resp)).result = .ok resp ∧
    (b.call now (some resp)).breaker.state = .CLOSED ∧
    (b.call now (some resp)).breaker.failure_count = 0 ∧
    (b.threshold ≤ b.failure_count + 1 → (b.call now none).breaker.state = .OPEN) := by
  refine ⟨?_, ?_, ?_, ?_⟩
  · rw [call_half_open_success b now resp hb]
  · rw [call_half_open_success b now resp hb]
  · rw [call_half_open_success b now resp hb]
  · intro hth
    rw [call_half_open_fail b now hb hth]

/-- Witness for C10: a HALF_OPEN breaker closes on a backend 500 response
and reopens on a transport error. -/
theorem C10_half_open_response_is_success_witness :
    (CircuitBreaker.call ⟨5, 60, 5, some 0, .HALF_OPEN⟩ 100 (some ⟨500, "internal"⟩)).result =
      .ok ⟨500, "internal"⟩ ∧
    (CircuitBreaker.call ⟨5, 60, 5, some 0, .HALF_OPEN⟩ 100
      (some ⟨500, "internal"⟩)).breaker.state = .CLOSED ∧
    (CircuitBreaker.call ⟨5, 60, 5, some 0, .HALF_OPEN⟩ 100
      (some ⟨500, "internal"⟩)).breaker.failure_count = 0 ∧
    (CircuitBreaker.call ⟨5, 60, 5, some 0, .HALF_OPEN⟩ 100 none).breaker.state = .OPEN := by
  have h := C10_half_open_response_is_success ⟨5, 60, 5, some 0, .HALF_OPEN⟩ 100
    ⟨500, "internal"⟩ rfl
  exact ⟨h.1, h.2.1, h.2.2.1, h.2.2.2 (by decide)⟩

end Gateway
